import Mathlib

/-!
Shallow embedding of `src/dashboard.py` (a pandas/streamlit dashboard).

Tables are lists of rows; a cell is a `Value` (string, number, or null —
null models `NaN`/`pd.NA`).  Numeric cells are carried as integers and
`pyStr` models Python's `str()` on cell values (`str(NaN) = "nan"`,
which is exactly what `astype(str)` produces for missing cells).
Fallible file loading is modelled with `Option (Except String _)`:
`none` = file absent, `.error` = `read_csv` (or later processing inside
the `try` block) raised, `.ok` = parsed table.
-/

inductive Value where
  | str : String → Value
  | num : Int → Value
  | null : Value
deriving DecidableEq, Repr

def pyStr : Value → String
  | Value.str s => s
  | Value.num n => toString n
  | Value.null => "nan"

def Value.notna : Value → Bool
  | Value.null => false
  | _ => true

def Value.isin (v : Value) (l : List Value) : Bool :=
  l.contains v

/-- Models `df[col].astype(str).replace(['nan', 'None', ''], np.nan)`
(dashboard.py lines 40-42 and 49-51): every cell is coerced to its
Python string form, and the literal strings `"nan"`, `"None"`, `""`
are replaced by `NaN`. -/
def normalizeKey (v : Value) : Value :=
  let s := pyStr v
  if s = "nan" ∨ s = "None" ∨ s = "" then Value.null else Value.str s

/-- A row of the primary table (`Jeff_Chang_Ultimate_Master_File.csv`):
the two join-key columns plus an open-ended set of other columns. -/
structure PrimRow where
  track_name : Value
  album_title : Value
  rest : List (String × Value)
deriving DecidableEq, Repr

/-- A row of the AI annotation table, projected to `AI_COLS`
(`df_ai[AI_COLS]`, dashboard.py line 57). -/
structure AIRow where
  track_name : Value
  album_title : Value
  ai_theme : Value
  ai_sentiment : Value
  ai_notes : Value
deriving DecidableEq, Repr

/-- A row of the merged table: all primary columns plus the three
annotation columns and (after line 62) the `has_ai_analysis` flag.
`leftMerge` produces it with `has_ai_analysis := false` as a
placeholder for "column not yet present". -/
structure MergedRow where
  track_name : Value
  album_title : Value
  rest : List (String × Value)
  ai_theme : Value
  ai_sentiment : Value
  ai_notes : Value
  has_ai_analysis : Bool
deriving DecidableEq, Repr

def normalizePrimRow (p : PrimRow) : PrimRow :=
  { p with track_name := normalizeKey p.track_name,
           album_title := normalizeKey p.album_title }

def normalizeAIRow (a : AIRow) : AIRow :=
  { a with track_name := normalizeKey a.track_name,
           album_title := normalizeKey a.album_title }

/-- Join-key equality used by `pd.merge(..., on=['track_name', 'album_title'])`.
pandas matches `NaN` join keys against `NaN`, so equality is plain
`Value` equality, null included. -/
def keyMatchB (p : PrimRow) (a : AIRow) : Bool :=
  decide (a.track_name = p.track_name) && decide (a.album_title = p.album_title)

def unmatchedRow (p : PrimRow) : MergedRow :=
  { track_name := p.track_name, album_title := p.album_title, rest := p.rest,
    ai_theme := Value.null, ai_sentiment := Value.null, ai_notes := Value.null,
    has_ai_analysis := false }

def matchedRow (p : PrimRow) (a : AIRow) : MergedRow :=
  { track_name := p.track_name, album_title := p.album_title, rest := p.rest,
    ai_theme := a.ai_theme, ai_sentiment := a.ai_sentiment, ai_notes := a.ai_notes,
    has_ai_analysis := false }

/-- One left row's contribution to `pd.merge(df_ultimate, df_ai[AI_COLS],
on=keys, how='left')`: every matching right row in order, or a single
row with null annotation columns when nothing matches. -/
def mergeOne (p : PrimRow) (ai : List AIRow) : List MergedRow :=
  let ms := ai.filter (fun a => keyMatchB p a)
  if ms.isEmpty then [unmatchedRow p] else ms.map (matchedRow p)

/-- `pd.merge(..., how='left')` (dashboard.py lines 55-60). -/
def leftMerge : List PrimRow → List AIRow → List MergedRow
  | [], _ => []
  | p :: ps, ai => mergeOne p ai ++ leftMerge ps ai

/-- Line 62: `df_merged['ai_theme'].notna() & (~df_merged['ai_theme'].isin(['SKIPPED', 'ERROR']))`. -/
def hasAIAnalysis (v : Value) : Bool :=
  v.notna && !(v.isin [Value.str "SKIPPED", Value.str "ERROR"])

/-- Line 62 as a column assignment on one merged row. -/
def addHasAI (r : MergedRow) : MergedRow :=
  { r with has_ai_analysis := hasAIAnalysis r.ai_theme }

def AI_COLS : List String :=
  ["track_name", "album_title", "ai_theme", "ai_sentiment", "ai_notes"]

/-- The parsed AI annotation file: its header (column names) and its
rows projected to the `AI_COLS` fields. -/
structure AIFileData where
  cols : List String
  rows : List AIRow
deriving DecidableEq, Repr

/-- Line 48: `all(col in df_ai.columns for col in AI_COLS)`. -/
def wellFormedAI (f : AIFileData) : Bool :=
  AI_COLS.all (fun c => f.cols.contains c)

/-- The filesystem as `load_data` sees it: the primary file and the
optional AI annotation file, each absent, unreadable, or parsed. -/
structure Env where
  fileA : Option (Except String (List PrimRow))
  fileB : Option (Except String AIFileData)

/-- What `load_data` returns on success: either the merged table or the
plain (normalized) primary table.  In the `plain` case the code appends
a constant-`False` `has_ai_analysis` column (lines 67, 72, 80). -/
inductive LoadOutput where
  | merged : List MergedRow → LoadOutput
  | plain : List PrimRow → LoadOutput
deriving DecidableEq, Repr

/-- The `has_ai_analysis` column of a `LoadOutput`. -/
def LoadOutput.hasFlags : LoadOutput → List Bool
  | LoadOutput.merged rows => rows.map (fun r => r.has_ai_analysis)
  | LoadOutput.plain rows => rows.map (fun _ => false)

/-- All join-key cells appearing in a `LoadOutput`. -/
def LoadOutput.keyValues : LoadOutput → List Value
  | LoadOutput.merged rows =>
      rows.map (fun r => r.track_name) ++ rows.map (fun r => r.album_title)
  | LoadOutput.plain rows =>
      rows.map (fun r => r.track_name) ++ rows.map (fun r => r.album_title)

/-- `load_data` (dashboard.py lines 23-81).  The second argument and
second component model `st.session_state['ai_available']` before and
after the call (`none` = key absent).  The first component is the
returned table (`none` = the function returned `None`). -/
def load_data (env : Env) (sess : Option Bool) : Option LoadOutput × Option Bool :=
  match env.fileA with
  | none => (none, sess)
  | some (Except.error _) => (none, sess)
  | some (Except.ok dfU0) =>
    let dfU := dfU0.map normalizePrimRow
    match env.fileB with
    | some (Except.error _) => (some (LoadOutput.plain dfU), some false)
    | some (Except.ok f) =>
      if wellFormedAI f then
        let dfA := f.rows.map normalizeAIRow
        let dfM := (leftMerge dfU dfA).map addHasAI
        (some (LoadOutput.merged dfM), some true)
      else
        (some (LoadOutput.plain dfU), some false)
    | none =>
      (some (LoadOutput.plain dfU), if sess.isNone then some false else sess)

/-- `fillna` on one cell (dashboard.py line 157). -/
def fillna (v : Value) (d : String) : Value :=
  match v with
  | Value.null => Value.str d
  | w => w

/-- Line 157: `df['track_name'].fillna('N/A') + " | " + df['album_title'].fillna('N/A')`.
String `+` on an object series concatenates strings and raises on
non-string cells, hence the `Option`. -/
def displayNameOf (track album : Value) : Option String :=
  match fillna track "N/A", fillna album "N/A" with
  | Value.str s, Value.str t => some (s ++ " | " ++ t)
  | _, _ => none

/-- The string a normalized key cell contributes to `display_name`. -/
def displaySlot (v : Value) : String :=
  match v with
  | Value.null => "N/A"
  | Value.str s => s
  | Value.num n => toString n

/-- The two columns of a row that matter to the song-selection sort
(dashboard.py lines 165-168). -/
structure SongRow where
  has_ai_analysis : Bool
  display_name : String
deriving DecidableEq, Repr

/-- Lexicographic (code-point) comparison on character lists: the order
Python uses on strings, executable in the kernel. -/
def charListLeB : List Char → List Char → Bool
  | [], _ => true
  | _ :: _, [] => false
  | a :: as, b :: bs => if a < b then true else if b < a then false else charListLeB as bs

/-- Python's `<=` on strings, as pandas compares `display_name` values. -/
def strLeB (s t : String) : Bool :=
  charListLeB s.data t.data

theorem charListLeB_cons (a b : Char) (as bs : List Char) :
    charListLeB (a :: as) (b :: bs) = true ↔
      a < b ∨ (a = b ∧ charListLeB as bs = true) := by
  rcases lt_trichotomy a b with h | h | h
  · simp [charListLeB, h]
  · subst h
    simp [charListLeB, lt_irrefl]
  · have h1 : ¬a < b := lt_asymm h
    have h2 : a ≠ b := ne_of_gt h
    simp [charListLeB, h1, h, h2]

theorem charListLeB_total : ∀ as bs : List Char,
    charListLeB as bs = true ∨ charListLeB bs as = true
  | [], _ => Or.inl rfl
  | _ :: _, [] => Or.inr rfl
  | a :: as, b :: bs => by
    rcases lt_trichotomy a b with h | h | h
    · exact Or.inl ((charListLeB_cons a b as bs).mpr (Or.inl h))
    · subst h
      rcases charListLeB_total as bs with ih | ih
      · exact Or.inl ((charListLeB_cons a a as bs).mpr (Or.inr ⟨rfl, ih⟩))
      · exact Or.inr ((charListLeB_cons a a bs as).mpr (Or.inr ⟨rfl, ih⟩))
    · exact Or.inr ((charListLeB_cons b a bs as).mpr (Or.inl h))

theorem charListLeB_trans : ∀ as bs cs : List Char,
    charListLeB as bs = true → charListLeB bs cs = true → charListLeB as cs = true
  | [], _, _ => fun _ _ => rfl
  | a :: as, [], _ => fun h1 _ => by simp [charListLeB] at h1
  | a :: as, b :: bs, [] => fun _ h2 => by simp [charListLeB] at h2
  | a :: as, b :: bs, c :: cs => fun h1 h2 => by
    rcases (charListLeB_cons a b as bs).mp h1 with hab | ⟨hab, hrec1⟩ <;>
      rcases (charListLeB_cons b c bs cs).mp h2 with hbc | ⟨hbc, hrec2⟩
    · exact (charListLeB_cons a c as cs).mpr (Or.inl (hab.trans hbc))
    · exact (charListLeB_cons a c as cs).mpr (Or.inl (hbc ▸ hab))
    · exact (charListLeB_cons a c as cs).mpr (Or.inl (hab ▸ hbc))
    · exact (charListLeB_cons a c as cs).mpr
        (Or.inr ⟨hab.trans hbc, charListLeB_trans as bs cs hrec1 hrec2⟩)

/-- The sort key of `df.sort_values(by=['has_ai_analysis', 'display_name'],
ascending=[False, True])`: lexicographic with `has_ai_analysis`
descending (`True` first) then `display_name` ascending. -/
def songLE (x y : SongRow) : Prop :=
  (x.has_ai_analysis = true ∧ y.has_ai_analysis = false) ∨
    (x.has_ai_analysis = y.has_ai_analysis ∧ strLeB x.display_name y.display_name = true)

instance : DecidableRel songLE := fun x y => by
  unfold songLE
  infer_instance

instance : IsTotal SongRow songLE := by
  constructor
  intro x y
  by_cases h : x.has_ai_analysis = y.has_ai_analysis
  · rcases charListLeB_total x.display_name.data y.display_name.data with hle | hle
    · exact Or.inl (Or.inr ⟨h, hle⟩)
    · exact Or.inr (Or.inr ⟨h.symm, hle⟩)
  · cases hx : x.has_ai_analysis with
    | true => exact Or.inl (Or.inl ⟨hx, by revert h; cases y.has_ai_analysis <;> simp [hx]⟩)
    | false => exact Or.inr (Or.inl ⟨by revert h; cases y.has_ai_analysis <;> simp [hx], hx⟩)

instance : IsTrans SongRow songLE := by
  constructor
  intro x y z hxy hyz
  rcases hxy with ⟨hx, hy⟩ | ⟨hxy, hle⟩
  · rcases hyz with ⟨hy2, hz⟩ | ⟨hyz, _⟩
    · exact absurd hy2 (by simp [hy])
    · exact Or.inl ⟨hx, hyz ▸ hy⟩
  · rcases hyz with ⟨hy, hz⟩ | ⟨hyz, hle2⟩
    · exact Or.inl ⟨hxy.trans hy, hz⟩
    · exact Or.inr ⟨hxy.trans hyz,
        charListLeB_trans x.display_name.data y.display_name.data z.display_name.data hle hle2⟩

/-- `df_sorted_for_list` (dashboard.py lines 165-168): a stable sort of
the rows by the song-selection key. -/
def sortSongs (rows : List SongRow) : List SongRow :=
  List.insertionSort songLE rows

/-- The `key_map` dict lookup of dashboard.py lines 94-99:
`key_map.get(x, pd.NA)` on a numeric key code. -/
def key_map (v : Value) : Option String :=
  match v with
  | Value.num 0 => some "C"
  | Value.num 1 => some "C#"
  | Value.num 2 => some "D"
  | Value.num 3 => some "D#"
  | Value.num 4 => some "E"
  | Value.num 5 => some "F"
  | Value.num 6 => some "F#"
  | Value.num 7 => some "G"
  | Value.num 8 => some "G#"
  | Value.num 9 => some "A"
  | Value.num 10 => some "A#"
  | Value.num 11 => some "B"
  | _ => none

/-- `df.dropna(subset=[column])` restricted to that one column. -/
def dropnaColumn (col : List Value) : List Value :=
  col.filter (fun v => v.notna)

/-- Line 99: `data[column].apply(lambda x: key_map.get(x, pd.NA))`. -/
def applyKeyMapColumn (col : List Value) : List Value :=
  col.map (fun x =>
    match key_map x with
    | some s => Value.str s
    | none => Value.null)

/-- The key-code column after the whole remapping pipeline of
`plot_categorical_chart` (lines 90-100): drop nulls, apply the lookup,
drop the unmapped values. -/
def remapKeyColumn (col : List Value) : List String :=
  (applyKeyMapColumn (dropnaColumn col)).filterMap (fun v =>
    match v with
    | Value.str s => some s
    | _ => none)

def countOcc (col : List Value) (v : Value) : Nat :=
  (col.filter (fun w => decide (w = v))).length

def dedupFirst (col : List Value) : List Value :=
  col.foldl (fun acc v => if acc.contains v then acc else acc ++ [v]) []

/-- Ordering of `value_counts()`: count descending. -/
def countGE (p q : Value × Nat) : Prop :=
  q.2 ≤ p.2

instance : DecidableRel countGE := fun p q => by
  unfold countGE
  infer_instance

/-- `data[column].value_counts().head(top_n)` (line 102): distinct
values in first-occurrence order, stably sorted by count descending,
truncated to `top_n`. -/
def value_counts (col : List Value) (top_n : Nat) : List (Value × Nat) :=
  (List.insertionSort countGE ((dedupFirst col).map (fun v => (v, countOcc col v)))).take top_n

/-- `plot_categorical_chart(df, 'key_key', ...)` (lines 84-113) with
pandas reference semantics made explicit: the heap is the list of live
dataframes (here just their `key_key` column) and `dfRef` is the
caller's frame.  `df.dropna(...)` allocates a fresh frame; the
assignment `data[column] = ...` writes that fresh frame in place; the
second `dropna` rebinds `data` to another fresh frame.  Returns the
final heap and the chart's data. -/
def plot_categorical_chart (heap : List (List Value)) (dfRef : Nat) (top_n : Nat) :
    List (List Value) × List (Value × Nat) :=
  let df := heap.getD dfRef []
  let data := dropnaColumn df
  let dataRef := heap.length
  let heap1 := heap ++ [data]
  let heap2 := heap1.set dataRef (applyKeyMapColumn data)
  let data2 := dropnaColumn (applyKeyMapColumn data)
  let heap3 := heap2 ++ [data2]
  (heap3, value_counts data2 top_n)

/-- The columns read and written by the derived-field computations
(line 62 for `has_ai_analysis`, line 157 for `display_name`). -/
structure DerivedRow where
  track_name : Value
  album_title : Value
  ai_theme : Value
  display_name : Option String
  has_ai_analysis : Bool
deriving DecidableEq, Repr

/-- The two derived-column assignments applied to one row:
`display_name` from the key columns (line 157) and `has_ai_analysis`
from `ai_theme` (line 62). -/
def deriveFields (r : DerivedRow) : DerivedRow :=
  { r with display_name := displayNameOf r.track_name r.album_title,
           has_ai_analysis := hasAIAnalysis r.ai_theme }

/-! ### Helper lemmas -/

theorem normalizeKey_null_or_str (v : Value) :
    normalizeKey v = Value.null ∨ normalizeKey v = Value.str (pyStr v) := by
  unfold normalizeKey
  by_cases h : pyStr v = "nan" ∨ pyStr v = "None" ∨ pyStr v = ""
  · exact Or.inl (by simp [h])
  · exact Or.inr (by simp [h])

theorem hasAIAnalysis_iff (v : Value) :
    hasAIAnalysis v = true ↔
      (v ≠ Value.null ∧ v ≠ Value.str "SKIPPED" ∧ v ≠ Value.str "ERROR") := by
  cases v with
  | null => simp [hasAIAnalysis, Value.notna, Value.isin]
  | num n => simp [hasAIAnalysis, Value.notna, Value.isin]
  | str s => simp [hasAIAnalysis, Value.notna, Value.isin]

theorem addHasAI_ai_theme (r : MergedRow) : (addHasAI r).ai_theme = r.ai_theme := rfl

theorem addHasAI_flag (r : MergedRow) :
    (addHasAI r).has_ai_analysis = hasAIAnalysis r.ai_theme := rfl

theorem displayNameOf_normalized (x y : Value)
    (hx : x = Value.null ∨ ∃ s, x = Value.str s)
    (hy : y = Value.null ∨ ∃ s, y = Value.str s) :
    displayNameOf x y = some (displaySlot x ++ " | " ++ displaySlot y) := by
  rcases hx with rfl | ⟨s, rfl⟩ <;> rcases hy with rfl | ⟨t, rfl⟩ <;>
    simp [displayNameOf, fillna, displaySlot]

/-- Pairwise-distinct `(track_name, album_title)` pairs in the primary table. -/
def primKeysDistinct (prim : List PrimRow) : Prop :=
  prim.Pairwise (fun p q => p.track_name ≠ q.track_name ∨ p.album_title ≠ q.album_title)

/-- Pairwise-distinct `(track_name, album_title)` pairs in the AI table. -/
def aiKeysDistinct (ai : List AIRow) : Prop :=
  ai.Pairwise (fun a b => a.track_name ≠ b.track_name ∨ a.album_title ≠ b.album_title)

/-- The primary-table part of a merged row. -/
def projPrim (m : MergedRow) : PrimRow :=
  { track_name := m.track_name, album_title := m.album_title, rest := m.rest }

theorem keyMatchB_iff (p : PrimRow) (a : AIRow) :
    keyMatchB p a = true ↔ a.track_name = p.track_name ∧ a.album_title = p.album_title := by
  simp [keyMatchB]

theorem filter_keyMatch_length (p : PrimRow) (ai : List AIRow) (ha : aiKeysDistinct ai) :
    (ai.filter (fun a => keyMatchB p a)).length ≤ 1 := by
  induction ai with
  | nil => simp
  | cons a tl ih =>
    rcases List.pairwise_cons.mp ha with ⟨h1, h2⟩
    by_cases hm : keyMatchB p a = true
    · rw [List.filter_cons_of_pos hm]
      have htl : tl.filter (fun b => keyMatchB p b) = [] := by
        rw [List.filter_eq_nil_iff]
        intro b hb hmb
        rcases keyMatchB_iff p a |>.mp hm with ⟨ht, hal⟩
        rcases keyMatchB_iff p b |>.mp hmb with ⟨ht2, hal2⟩
        rcases h1 b hb with hne | hne
        · exact hne (ht.trans ht2.symm)
        · exact hne (hal.trans hal2.symm)
      simp [htl]
    · rw [List.filter_cons_of_neg (by simpa using hm)]
      exact ih h2

theorem projPrim_unmatchedRow (p : PrimRow) : projPrim (unmatchedRow p) = p := rfl

theorem projPrim_matchedRow (p : PrimRow) (a : AIRow) : projPrim (matchedRow p a) = p := rfl

theorem projPrim_addHasAI (m : MergedRow) : projPrim (addHasAI m) = projPrim m := rfl

theorem mergeOne_map_proj (p : PrimRow) (ai : List AIRow)
    (h : (ai.filter (fun a => keyMatchB p a)).length ≤ 1) :
    (mergeOne p ai).map projPrim = [p] := by
  unfold mergeOne
  cases hms : ai.filter (fun a => keyMatchB p a) with
  | nil => simp [projPrim_unmatchedRow]
  | cons a tl =>
    have htl : tl = [] := by
      rw [hms] at h
      simpa using List.length_eq_zero.mp (Nat.le_zero.mp (Nat.lt_succ_iff.mp h))
    subst htl
    simp [projPrim_matchedRow]

theorem leftMerge_keys (prim : List PrimRow) (ai : List AIRow) :
    ∀ r ∈ leftMerge prim ai,
      ∃ p ∈ prim, r.track_name = p.track_name ∧ r.album_title = p.album_title := by
  induction prim with
  | nil => simp [leftMerge]
  | cons p ps ih =>
    intro r hr
    rw [leftMerge] at hr
    rcases List.mem_append.mp hr with h | h
    · refine ⟨p, List.mem_cons_self p ps, ?_⟩
      unfold mergeOne at h
      by_cases he : (ai.filter (fun a => keyMatchB p a)).isEmpty
      · simp only [he, if_pos] at h
        rcases List.mem_singleton.mp h with rfl
        exact ⟨rfl, rfl⟩
      · simp only [he, if_neg, Bool.false_eq_true, not_false_iff] at h
        rcases List.mem_map.mp h with ⟨a, _, rfl⟩
        exact ⟨rfl, rfl⟩
    · rcases ih r h with ⟨q, hq, hkeys⟩
      exact ⟨q, List.mem_cons_of_mem p hq, hkeys⟩

/-! ### Concrete tables used by witnesses and counterexamples -/

def pRow1 : PrimRow :=
  { track_name := Value.str "song", album_title := Value.str "album", rest := [] }

def aRow1 : AIRow :=
  { track_name := Value.str "song", album_title := Value.str "album",
    ai_theme := Value.str "love", ai_sentiment := Value.str "positive",
    ai_notes := Value.str "note" }

def envBoth : Env :=
  { fileA := some (Except.ok [pRow1]),
    fileB := some (Except.ok { cols := AI_COLS, rows := [aRow1] }) }

def mergedRow1 : MergedRow :=
  { track_name := Value.str "song", album_title := Value.str "album", rest := [],
    ai_theme := Value.str "love", ai_sentiment := Value.str "positive",
    ai_notes := Value.str "note", has_ai_analysis := true }

def aRow2 : AIRow :=
  { track_name := Value.str "song", album_title := Value.str "album",
    ai_theme := Value.str "loss", ai_sentiment := Value.str "negative",
    ai_notes := Value.str "note2" }

def envDup : Env :=
  { fileA := some (Except.ok [pRow1]),
    fileB := some (Except.ok { cols := AI_COLS, rows := [aRow1, aRow2] }) }

/-- Row count of the table `load_data` returned. -/
def LoadOutput.numRows : LoadOutput → Nat
  | LoadOutput.merged rows => rows.length
  | LoadOutput.plain rows => rows.length

def envNoB : Env :=
  { fileA := some (Except.ok [pRow1]), fileB := none }

def envMissingA : Env :=
  { fileA := none, fileB := none }

/-! ### Claim theorems -/

/-- C1: in the table returned by `load_data` when the AI annotation file
is present and well-formed (the merged branch), every row has
`has_ai_analysis = true` iff its `ai_theme` is non-null and is neither
`"SKIPPED"` nor `"ERROR"`. -/
theorem merged_has_ai_iff (env : Env) (sess : Option Bool) (rows : List MergedRow)
    (h : (load_data env sess).1 = some (LoadOutput.merged rows))
    (r : MergedRow) (hr : r ∈ rows) :
    r.has_ai_analysis = true ↔
      (r.ai_theme ≠ Value.null ∧ r.ai_theme ≠ Value.str "SKIPPED" ∧
        r.ai_theme ≠ Value.str "ERROR") := by
  have hform : r.has_ai_analysis = hasAIAnalysis r.ai_theme := by
    rcases env with ⟨fA, fB⟩
    rcases fA with _ | x
    · simp [load_data] at h
    rcases x with e | dfU0
    · simp [load_data] at h
    rcases fB with _ | y
    · simp [load_data] at h
    rcases y with e | f
    · simp [load_data] at h
    by_cases hwf : wellFormedAI f = true
    · simp [load_data, hwf] at h
      subst h
      rcases List.mem_map.mp hr with ⟨r0, _, rfl⟩
      rw [addHasAI_flag, addHasAI_ai_theme]
    · simp [load_data, hwf] at h
  rw [hform]
  exact hasAIAnalysis_iff r.ai_theme

/-- Witness for C1 at a concrete environment and row. -/
theorem merged_has_ai_iff_witness :
    mergedRow1.has_ai_analysis = true ↔
      (mergedRow1.ai_theme ≠ Value.null ∧ mergedRow1.ai_theme ≠ Value.str "SKIPPED" ∧
        mergedRow1.ai_theme ≠ Value.str "ERROR") :=
  merged_has_ai_iff envBoth none [mergedRow1] (by decide) mergedRow1 (by decide)

/-- C2 (counterexample): with a one-row primary table whose keys are
trivially pairwise distinct and a secondary table holding two rows with
the same key, the merged table `load_data` returns has 2 rows, not 1. -/
theorem merge_cardinality_counterexample :
    primKeysDistinct [pRow1] ∧
      Option.map LoadOutput.numRows (load_data envDup none).1 = some 2 := by
  constructor
  · exact List.pairwise_singleton _ _
  · decide

/-- C2 (amended): if additionally the secondary table's key pairs are
pairwise distinct, the merged table built by `load_data` (left merge
then the `has_ai_analysis` assignment) carries every primary row
exactly once, in particular it has exactly as many rows as the primary
table. -/
theorem merge_cardinality_preserved (prim : List PrimRow) (ai : List AIRow)
    (hp : primKeysDistinct prim) (ha : aiKeysDistinct ai) :
    ((leftMerge prim ai).map addHasAI).map projPrim = prim ∧
      ((leftMerge prim ai).map addHasAI).length = prim.length := by
  have key : (leftMerge prim ai).map projPrim = prim := by
    induction prim with
    | nil => simp [leftMerge]
    | cons p ps ih =>
      rw [leftMerge, List.map_append,
        mergeOne_map_proj p ai (filter_keyMatch_length p ai ha),
        ih (List.Pairwise.of_cons hp)]
      rfl
  constructor
  · rw [List.map_map]
    have : (projPrim ∘ addHasAI) = projPrim := by
      funext m
      exact projPrim_addHasAI m
    rw [this, key]
  · have := congrArg List.length key
    simpa using this

/-- Witness for C2's amended theorem at a concrete pair of tables. -/
theorem merge_cardinality_preserved_witness :
    ((leftMerge [pRow1] [aRow1]).map addHasAI).map projPrim = [pRow1] ∧
      ((leftMerge [pRow1] [aRow1]).map addHasAI).length = [pRow1].length :=
  merge_cardinality_preserved [pRow1] [aRow1]
    (List.pairwise_singleton _ _) (List.pairwise_singleton _ _)

/-- C9: when the primary file is missing or fails to parse, `load_data`
returns no table at all. -/
theorem load_data_primary_failure (env : Env) (sess : Option Bool)
    (h : env.fileA = none ∨ ∃ e, env.fileA = some (Except.error e)) :
    (load_data env sess).1 = none := by
  rcases h with h | ⟨e, h⟩ <;> simp [load_data, h]

/-- Witness for C9: the primary file is absent. -/
theorem load_data_primary_failure_witness :
    (load_data envMissingA none).1 = none :=
  load_data_primary_failure envMissingA none (Or.inl rfl)

/-- C3 (counterexample): with the AI annotation file absent but a prior
session status `ai_available = true`, `load_data` leaves the stale
`true` in place instead of recording `false`. -/
theorem no_ai_file_status_counterexample :
    envNoB.fileB = none ∧ (load_data envNoB (some true)).2 = some true := by
  constructor
  · rfl
  · decide

/-- C3 (amended): when the AI annotation file is absent, `load_data`
returns the normalized primary table with `has_ai_analysis` false for
every row, and records `ai_available = false` only when no status was
previously recorded — a pre-existing status is left unchanged. -/
theorem load_data_no_ai_file (env : Env) (sess : Option Bool) (dfU0 : List PrimRow)
    (hA : env.fileA = some (Except.ok dfU0)) (hB : env.fileB = none) :
    (load_data env sess).1 = some (LoadOutput.plain (dfU0.map normalizePrimRow)) ∧
      Option.map LoadOutput.hasFlags (load_data env sess).1 =
        some (List.replicate dfU0.length false) ∧
      (load_data env sess).2 = (if sess.isNone then some false else sess) := by
  rcases env with ⟨fA, fB⟩
  simp only at hA hB
  subst hA
  subst hB
  refine ⟨?_, ?_, ?_⟩
  · simp [load_data]
  · simp [load_data, LoadOutput.hasFlags]
  · simp [load_data]

/-- Witness for C3's amended theorem: no prior status, so
`ai_available = false` is recorded. -/
theorem load_data_no_ai_file_witness :
    (load_data envNoB none).1 = some (LoadOutput.plain ([pRow1].map normalizePrimRow)) ∧
      Option.map LoadOutput.hasFlags (load_data envNoB none).1 =
        some (List.replicate [pRow1].length false) ∧
      (load_data envNoB none).2 = (if (none : Option Bool).isNone then some false else none) :=
  load_data_no_ai_file envNoB none [pRow1] rfl rfl

/-- C4: a key-column value that is null, `"nan"`, `"None"`, or `""` is
normalized to the missing marker, `display_name` renders that position
as `"N/A"`, and `display_name` on normalized keys always is the
concatenation of the two filled slots around `" | "`. -/
theorem normalize_display_contract (v w t a : Value)
    (h : v = Value.null ∨ v = Value.str "nan" ∨ v = Value.str "None" ∨ v = Value.str "") :
    normalizeKey v = Value.null ∧
      displayNameOf (normalizeKey v) (normalizeKey w) =
        some ("N/A" ++ " | " ++ displaySlot (normalizeKey w)) ∧
      displayNameOf (normalizeKey w) (normalizeKey v) =
        some (displaySlot (normalizeKey w) ++ " | " ++ "N/A") ∧
      displayNameOf (normalizeKey t) (normalizeKey a) =
        some (displaySlot (normalizeKey t) ++ " | " ++ displaySlot (normalizeKey a)) := by
  have hnorm : ∀ x : Value, normalizeKey x = Value.null ∨ ∃ s, normalizeKey x = Value.str s := by
    intro x
    rcases normalizeKey_null_or_str x with hx | hx
    · exact Or.inl hx
    · exact Or.inr ⟨pyStr x, hx⟩
  have hv : normalizeKey v = Value.null := by
    rcases h with rfl | rfl | rfl | rfl <;> simp [normalizeKey, pyStr]
  refine ⟨hv, ?_, ?_, ?_⟩
  · rw [hv, displayNameOf_normalized Value.null (normalizeKey w) (Or.inl rfl) (hnorm w)]
    rfl
  · rw [hv, displayNameOf_normalized (normalizeKey w) Value.null (hnorm w) (Or.inl rfl)]
    rfl
  · exact displayNameOf_normalized (normalizeKey t) (normalizeKey a) (hnorm t) (hnorm a)

/-- Witness for C4 at concrete values. -/
theorem normalize_display_contract_witness :
    normalizeKey (Value.str "nan") = Value.null ∧
      displayNameOf (normalizeKey (Value.str "nan")) (normalizeKey (Value.str "Album")) =
        some ("N/A" ++ " | " ++ displaySlot (normalizeKey (Value.str "Album"))) ∧
      displayNameOf (normalizeKey (Value.str "Album")) (normalizeKey (Value.str "nan")) =
        some (displaySlot (normalizeKey (Value.str "Album")) ++ " | " ++ "N/A") ∧
      displayNameOf (normalizeKey (Value.num 7)) (normalizeKey Value.null) =
        some (displaySlot (normalizeKey (Value.num 7)) ++ " | " ++
          displaySlot (normalizeKey Value.null)) :=
  normalize_display_contract (Value.str "nan") (Value.str "Album") (Value.num 7) Value.null
    (Or.inr (Or.inl rfl))

/-- C5: in the sorted song list, rows with AI analysis come strictly
before rows without, and within a group of equal flags `display_name`
is ascending. -/
theorem sortSongs_ordering (rows : List SongRow) (i j : Nat)
    (hij : i < j) (hj : j < (sortSongs rows).length) :
    (((sortSongs rows).get ⟨j, hj⟩).has_ai_analysis = true →
      ((sortSongs rows).get ⟨i, Nat.lt_trans hij hj⟩).has_ai_analysis = true) ∧
    (((sortSongs rows).get ⟨i, Nat.lt_trans hij hj⟩).has_ai_analysis =
        ((sortSongs rows).get ⟨j, hj⟩).has_ai_analysis →
      strLeB ((sortSongs rows).get ⟨i, Nat.lt_trans hij hj⟩).display_name
        ((sortSongs rows).get ⟨j, hj⟩).display_name = true) := by
  have hs : (sortSongs rows).Sorted songLE := List.sorted_insertionSort songLE rows
  have hrel : songLE ((sortSongs rows).get ⟨i, Nat.lt_trans hij hj⟩)
      ((sortSongs rows).get ⟨j, hj⟩) :=
    hs.rel_get_of_lt (Fin.mk_lt_mk.mpr hij)
  constructor
  · intro hjt
    rcases hrel with ⟨h1, _⟩ | ⟨h1, _⟩
    · exact h1
    · exact h1.trans hjt
  · intro heq
    rcases hrel with ⟨h1, h2⟩ | ⟨_, h2⟩
    · rw [h1, h2] at heq
      exact absurd heq (by simp)
    · exact h2

def demoRows : List SongRow :=
  [{ has_ai_analysis := true, display_name := "B | x" },
   { has_ai_analysis := false, display_name := "A | y" },
   { has_ai_analysis := true, display_name := "A | z" }]

/-- Witness for C5 on the three-row example table. -/
theorem sortSongs_ordering_witness :
    (((sortSongs demoRows).get ⟨1, by decide⟩).has_ai_analysis = true →
      ((sortSongs demoRows).get ⟨0, by decide⟩).has_ai_analysis = true) ∧
    (((sortSongs demoRows).get ⟨0, by decide⟩).has_ai_analysis =
        ((sortSongs demoRows).get ⟨1, by decide⟩).has_ai_analysis →
      strLeB ((sortSongs demoRows).get ⟨0, by decide⟩).display_name
        ((sortSongs demoRows).get ⟨1, by decide⟩).display_name = true) :=
  sortSongs_ordering demoRows 0 1 (by decide) (by decide)

theorem key_map_str (s : String) : key_map (Value.str s) = none := rfl

theorem key_map_null : key_map Value.null = none := rfl

theorem remapKeyColumn_eq_filterMap (col : List Value) :
    remapKeyColumn col = col.filterMap key_map := by
  induction col with
  | nil => rfl
  | cons v tl ih =>
    cases v with
    | null =>
      simpa [remapKeyColumn, dropnaColumn, applyKeyMapColumn, Value.notna,
        List.filter_cons, List.filterMap_cons, key_map_null] using ih
    | str s =>
      simpa [remapKeyColumn, dropnaColumn, applyKeyMapColumn, Value.notna,
        List.filter_cons, List.filterMap_cons, key_map_str] using ih
    | num n =>
      cases hk : key_map (Value.num n) with
      | none =>
        simpa [remapKeyColumn, dropnaColumn, applyKeyMapColumn, Value.notna,
          List.filter_cons, List.filterMap_cons, hk] using ih
      | some s =>
        simpa [remapKeyColumn, dropnaColumn, applyKeyMapColumn, Value.notna,
          List.filter_cons, List.filterMap_cons, hk] using ih

/-- C6: the key-code remapper sends each code `0..11` to the fixed
note-name table (`5` to `"F"`), unmapped codes like `12` and nulls to
no label, and the remapped view of any column simply drops exactly the
null and out-of-domain rows. -/
theorem key_map_contract :
    key_map (Value.num 0) = some "C" ∧ key_map (Value.num 1) = some "C#" ∧
    key_map (Value.num 2) = some "D" ∧ key_map (Value.num 3) = some "D#" ∧
    key_map (Value.num 4) = some "E" ∧ key_map (Value.num 5) = some "F" ∧
    key_map (Value.num 6) = some "F#" ∧ key_map (Value.num 7) = some "G" ∧
    key_map (Value.num 8) = some "G#" ∧ key_map (Value.num 9) = some "A" ∧
    key_map (Value.num 10) = some "A#" ∧ key_map (Value.num 11) = some "B" ∧
    key_map (Value.num 12) = none ∧ key_map Value.null = none ∧
    ∀ col : List Value, remapKeyColumn col = col.filterMap key_map :=
  ⟨rfl, rfl, rfl, rfl, rfl, rfl, rfl, rfl, rfl, rfl, rfl, rfl, rfl, rfl,
    remapKeyColumn_eq_filterMap⟩

/-- C7: `plot_categorical_chart` never mutates the caller's frame: the
remapped labels live only in the chart's own copies. -/
theorem plot_chart_no_mutation (heap : List (List Value)) (dfRef top_n : Nat)
    (h : dfRef < heap.length) :
    ((plot_categorical_chart heap dfRef top_n).1)[dfRef]? = heap[dfRef]? := by
  show ((((heap ++ [dropnaColumn (heap.getD dfRef [])]).set heap.length
      (applyKeyMapColumn (dropnaColumn (heap.getD dfRef [])))) ++
      [dropnaColumn (applyKeyMapColumn (dropnaColumn (heap.getD dfRef [])))])[dfRef]?) =
      heap[dfRef]?
  rw [List.getElem?_append_left (by simpa using Nat.lt_succ_of_lt (by simpa using h)),
    List.getElem?_set_ne (Nat.ne_of_gt h),
    List.getElem?_append_left h]

def heapW : List (List Value) :=
  [[Value.num 5, Value.null, Value.num 12, Value.num 5]]

/-- Witness for C7 at a concrete one-frame heap. -/
theorem plot_chart_no_mutation_witness :
    ((plot_categorical_chart heapW 0 15).1)[0]? = heapW[0]? :=
  plot_chart_no_mutation heapW 0 15 (by decide)

/-- C8: the derived-field computation is idempotent: recomputing
`display_name` and `has_ai_analysis` on an already-derived table
reproduces the same columns. -/
theorem derive_fields_idempotent (rows : List DerivedRow) :
    (rows.map deriveFields).map deriveFields = rows.map deriveFields := by
  rw [List.map_map]
  have hcomp : deriveFields ∘ deriveFields = deriveFields := by
    funext r
    rfl
  rw [hcomp]

/-- C10: key normalization yields either the missing marker or the
Python string form of the original cell, and every join-key cell of any
table `load_data` returns is null or a string. -/
theorem load_data_key_strings :
    (∀ v : Value, normalizeKey v = Value.null ∨ normalizeKey v = Value.str (pyStr v)) ∧
    (∀ (env : Env) (sess : Option Bool) (out : LoadOutput),
      (load_data env sess).1 = some out →
      ∀ v ∈ out.keyValues, v = Value.null ∨ ∃ s, v = Value.str s) := by
  have hshape : ∀ v : Value, normalizeKey v = Value.null ∨ ∃ s, normalizeKey v = Value.str s := by
    intro v
    rcases normalizeKey_null_or_str v with hv | hv
    · exact Or.inl hv
    · exact Or.inr ⟨pyStr v, hv⟩
  refine ⟨normalizeKey_null_or_str, ?_⟩
  intro env sess out h v hv
  rcases env with ⟨fA, fB⟩
  rcases fA with _ | x
  · simp [load_data] at h
  rcases x with e | dfU0
  · simp [load_data] at h
  have hprim : ∀ q ∈ dfU0.map normalizePrimRow,
      (q.track_name = Value.null ∨ ∃ s, q.track_name = Value.str s) ∧
      (q.album_title = Value.null ∨ ∃ s, q.album_title = Value.str s) := by
    intro q hq
    rcases List.mem_map.mp hq with ⟨p, _, rfl⟩
    exact ⟨hshape p.track_name, hshape p.album_title⟩
  have hplain : ∀ rows, rows = dfU0.map normalizePrimRow →
      out = LoadOutput.plain rows → v ∈ out.keyValues →
      v = Value.null ∨ ∃ s, v = Value.str s := by
    intro rows hrows hout hv2
    subst hout hrows
    rcases List.mem_append.mp hv2 with hm | hm
    · rcases List.mem_map.mp hm with ⟨q, hq, rfl⟩
      exact (hprim q hq).1
    · rcases List.mem_map.mp hm with ⟨q, hq, rfl⟩
      exact (hprim q hq).2
  rcases fB with _ | y
  · simp [load_data] at h
    exact hplain _ rfl h.symm hv
  rcases y with e | f
  · simp [load_data] at h
    exact hplain _ rfl h.symm hv
  by_cases hwf : wellFormedAI f = true
  · simp [load_data, hwf] at h
    subst h
    rcases List.mem_append.mp hv with hm | hm
    · rcases List.mem_map.mp hm with ⟨r, hr, rfl⟩
      rcases List.mem_map.mp hr with ⟨r0, hr0, rfl⟩
      rcases leftMerge_keys _ _ r0 hr0 with ⟨p, hp, hkt, _⟩
      rw [addHasAI] at *
      rw [hkt]
      exact (hprim p hp).1
    · rcases List.mem_map.mp hm with ⟨r, hr, rfl⟩
      rcases List.mem_map.mp hr with ⟨r0, hr0, rfl⟩
      rcases leftMerge_keys _ _ r0 hr0 with ⟨p, hp, _, hka⟩
      rw [addHasAI] at *
      rw [hka]
      exact (hprim p hp).2
  · simp [load_data, hwf] at h
    exact hplain _ rfl h.symm hv

/-- Witness for C10 at the concrete merged environment. -/
theorem load_data_key_strings_witness :
    Value.str "song" = Value.null ∨ ∃ s, Value.str "song" = Value.str s :=
  load_data_key_strings.2 envBoth none (LoadOutput.merged [mergedRow1])
    (by decide) (Value.str "song") (by decide)
